import Mathlib

/-!
Verification development for the trend-collection core of the
`daily-trending-info` repository.

The Python sources under `scripts/` are shallowly embedded below:
pure functions become Lean functions, the collector's mutable state
(`feed_failures`, `feed_cache`, `persistent_feed_cache`) becomes an
explicit `FetchState` record threaded through the fetch client, and the
HTTP session is abstracted as a transport oracle handed to the fetch
functions.  Python `float` scores, thresholds and multipliers are
modelled as exact rationals (`ℚ`); timestamps and clock readings as
integers (epoch seconds).  Python dicts are modelled as association
lists whose `insert` removes the old binding and prepends the new one:
lookups agree with dict semantics, and no embedded code iterates over a
dict, so binding order is unobservable.

`config.py` is not part of the provided sources; the two deduplication
thresholds it defines (`DEDUP_SIMILARITY_THRESHOLD`,
`DEDUP_SEMANTIC_THRESHOLD`) are therefore kept as explicit parameters
of the deduplication functions, exactly as the spec describes them
("token overlap ratio ≥ threshold T", "semantic threshold S").
-/

/-! ### Small generic helpers -/

/-- Association-list lookup: first binding wins (dict lookup). -/
def lookupA {α : Type} : List (String × α) → String → Option α
  | [], _ => none
  | (k, v) :: rest, key => if k = key then some v else lookupA rest key

/-- Remove every binding for `key` (dict `pop`). -/
def eraseA {α : Type} (l : List (String × α)) (key : String) : List (String × α) :=
  l.filter (fun p => ¬ (p.1 = key))

/-- Dict assignment `d[key] = v`: drop the old binding, prepend the new one.
Binding order differs from CPython's insertion order, but no embedded code
iterates over a dict, so only lookups are observable. -/
def insertA {α : Type} (l : List (String × α)) (key : String) (v : α) :
    List (String × α) :=
  (key, v) :: eraseA l key

theorem lookupA_insertA_self {α : Type} (l : List (String × α)) (k : String) (v : α) :
    lookupA (insertA l k v) k = some v := by
  simp [insertA, lookupA]

theorem lookupA_eraseA_self {α : Type} (l : List (String × α)) (k : String) :
    lookupA (eraseA l k) k = none := by
  induction l with
  | nil => rfl
  | cons p rest ih =>
    by_cases h : p.1 = k <;> simp [eraseA, lookupA, h] at ih ⊢ <;> simpa [eraseA] using ih

theorem lookupA_insertA_ne {α : Type} (l : List (String × α)) (k k' : String) (v : α)
    (h : k ≠ k') : lookupA (insertA l k v) k' = lookupA (eraseA l k) k' := by
  simp [insertA, lookupA, h]

/-- `foldl` preserves an invariant. -/
theorem foldl_inv {α β : Type} (P : β → Prop) (f : β → α → β) (l : List α) (b : β)
    (h0 : P b) (hstep : ∀ acc x, x ∈ l → P acc → P (f acc x)) : P (l.foldl f b) := by
  induction l generalizing b with
  | nil => exact h0
  | cons x xs ih =>
    exact ih (f b x) (hstep b x (by simp) h0)
      (fun acc y hy => hstep acc y (by simp [hy]))

/-- Python `set(...)` rendered as a first-occurrence duplicate-free
list (structural recursion with a seen-accumulator, so the kernel can
evaluate it). -/
def dedupGo (seen : List String) : List String → List String
  | [] => []
  | x :: xs => if seen.contains x then dedupGo seen xs else x :: dedupGo (seen ++ [x]) xs

def dedupL (l : List String) : List String := dedupGo [] l

theorem mem_dedupGo (a : String) : ∀ (l seen : List String),
    a ∈ dedupGo seen l ↔ (a ∈ l ∧ a ∉ seen) := by
  intro l
  induction l with
  | nil => simp [dedupGo]
  | cons x xs ih =>
    intro seen
    by_cases hc : seen.contains x
    · have hcm : x ∈ seen := List.elem_iff.mp hc
      rw [dedupGo, if_pos hc, ih]
      by_cases ha : a = x
      · subst ha; simp [hcm]
      · simp [ha]
    · have hcm : x ∉ seen := fun hm => hc (List.elem_iff.mpr hm)
      rw [dedupGo, if_neg hc]
      by_cases ha : a = x
      · subst ha; simp [hcm]
      · simp [ha, ih, List.mem_append]

theorem count_dedupGo (a : String) : ∀ (l seen : List String),
    (dedupGo seen l).count a = if a ∈ l ∧ a ∉ seen then 1 else 0 := by
  intro l
  induction l with
  | nil => simp [dedupGo]
  | cons x xs ih =>
    intro seen
    by_cases hc : seen.contains x
    · have hcm : x ∈ seen := List.elem_iff.mp hc
      rw [dedupGo, if_pos hc, ih]
      by_cases ha : a = x
      · subst ha; simp [hcm]
      · simp [ha]
    · have hcm : x ∉ seen := fun hm => hc (List.elem_iff.mpr hm)
      rw [dedupGo, if_neg hc]
      by_cases ha : a = x
      · subst ha
        rw [List.count_cons_self, ih]
        simp [hcm, List.mem_append]
      · rw [List.count_cons_of_ne ha, ih]
        simp [ha, List.mem_append]

theorem mem_dedupL (a : String) (l : List String) : a ∈ dedupL l ↔ a ∈ l := by
  simp [dedupL, mem_dedupGo]

theorem count_dedupL (a : String) (l : List String) :
    (dedupL l).count a = if a ∈ l then 1 else 0 := by
  simp [dedupL, count_dedupGo]

/-! ### Character/string utilities (ASCII-faithful renderings of the
Python `str` operations used by the collector) -/

/-- Python string comparison is lexicographic on code points; tokens are
compared through their character lists because that is what the kernel
can evaluate. -/
def charListLt : List Char → List Char → Bool
  | [], [] => false
  | [], _ :: _ => true
  | _ :: _, [] => false
  | c :: cs, d :: ds =>
    if c.toNat < d.toNat then true
    else if d.toNat < c.toNat then false
    else charListLt cs ds

def strLtb (a b : String) : Bool := charListLt a.toList b.toList

/-- Insert into a list sorted by `strLtb` (used for Python's `sorted`). -/
def sortInsert (x : String) : List String → List String
  | [] => [x]
  | y :: ys => if strLtb x y then x :: y :: ys else y :: sortInsert x ys

/-- Python `sorted` on a list of strings (insertion sort; the sorted
inputs here are duplicate-free token sets, so stability is moot). -/
def sortStrings : List String → List String
  | [] => []
  | x :: xs => sortInsert x (sortStrings xs)

/-- Python `str.split()`: split on whitespace runs, dropping empties. -/
def splitWsChars : List Char → List Char → List String
  | [], acc => if acc.isEmpty then [] else [String.mk acc.reverse]
  | c :: cs, acc =>
    if c.isWhitespace then
      (if acc.isEmpty then [] else [String.mk acc.reverse]) ++ splitWsChars cs []
    else splitWsChars cs (c :: acc)

def splitWs (s : String) : List String := splitWsChars s.toList []

/-- `" ".join(l)`. -/
def joinSpace : List String → String
  | [] => ""
  | [x] => x
  | x :: xs => x ++ " " ++ joinSpace xs

/-- Python `token.isdigit()` for ASCII tokens. -/
def isDigitStr (s : String) : Bool := ¬ s.toList.isEmpty ∧ s.toList.all Char.isDigit

/-- `re.sub(r"[^\w\s]", " ", text.lower())`: lowercase, keep word
characters (`[A-Za-z0-9_]`) and whitespace, replace the rest by a space. -/
def lowerWordChars (s : String) : List Char :=
  s.toList.map (fun c =>
    let c := c.toLower
    if c.isAlphanum ∨ c = '_' ∨ c.isWhitespace then c else ' ')

/-- Normalized title used by the deduplicator: lowercase, punctuation to
spaces, whitespace collapsed, stripped (`re.sub(r"\s+", " ", ...).strip()`). -/
def normalizeTitle (s : String) : String :=
  joinSpace (splitWsChars (lowerWordChars s) [])

/-! ### `difflib.SequenceMatcher.ratio` (no junk: inputs are short)

`find_longest_match` returns the longest common run, ties resolved to the
earliest start in `a`, then the earliest start in `b`.  `ratio` is
`2*M / (len(a)+len(b))` where `M` sums the sizes of the recursively
extracted matching blocks, and `1.0` when both inputs are empty. -/

def commonRun : List Char → List Char → Nat
  | a :: as_, b :: bs => if a = b then commonRun as_ bs + 1 else 0
  | _, _ => 0

theorem commonRun_le_left : ∀ (a b : List Char), commonRun a b ≤ a.length
  | [], _ => by simp [commonRun]
  | _ :: _, [] => by simp [commonRun]
  | a :: as_, b :: bs => by
    by_cases h : a = b
    · simpa [commonRun, h] using commonRun_le_left as_ bs
    · simp [commonRun, h]

/-- Brute-force `find_longest_match` over the whole strings:
maximal run length, earliest in `a`, then earliest in `b`. -/
def longestMatch (a b : List Char) : Nat × Nat × Nat :=
  (List.range a.length).foldl (fun best i =>
    (List.range b.length).foldl (fun best j =>
      let k := commonRun (a.drop i) (b.drop j)
      if best.2.2 < k then (i, j, k) else best) best) (0, 0, 0)

theorem longestMatch_bound (a b : List Char) :
    (longestMatch a b).2.2 = 0 ∨
      (longestMatch a b).1 + (longestMatch a b).2.2 ≤ a.length := by
  unfold longestMatch
  apply foldl_inv (fun t : Nat × Nat × Nat => t.2.2 = 0 ∨ t.1 + t.2.2 ≤ a.length)
  · exact Or.inl rfl
  · intro acc i hi hacc
    apply foldl_inv (fun t : Nat × Nat × Nat => t.2.2 = 0 ∨ t.1 + t.2.2 ≤ a.length)
    · exact hacc
    · intro acc' j hj hacc'
      dsimp only
      split
      · right
        show i + commonRun (a.drop i) (b.drop j) ≤ a.length
        have hi' : i < a.length := List.mem_range.mp hi
        have hk : commonRun (a.drop i) (b.drop j) ≤ a.length - i := by
          simpa using commonRun_le_left (a.drop i) (b.drop j)
        omega
      · exact hacc'

def matchTotal (a b : List Char) : Nat :=
  if h : (longestMatch a b).2.2 = 0 then 0
  else
    matchTotal (a.take (longestMatch a b).1) (b.take (longestMatch a b).2.1) +
      (longestMatch a b).2.2 +
      matchTotal (a.drop ((longestMatch a b).1 + (longestMatch a b).2.2))
        (b.drop ((longestMatch a b).2.1 + (longestMatch a b).2.2))
termination_by a.length
decreasing_by
  · have hb := (longestMatch_bound a b).resolve_left h
    simp only [List.length_take]
    omega
  · have hb := (longestMatch_bound a b).resolve_left h
    have hk : (longestMatch a b).2.2 ≠ 0 := h
    simp only [List.length_drop]
    omega

/-- `SequenceMatcher(None, a, b).ratio()` as an exact rational. -/
def smScore (a b : String) : ℚ :=
  let la := a.toList
  let lb := b.toList
  let total := la.length + lb.length
  if total = 0 then 1 else (2 * (matchTotal la lb) : ℚ) / (total : ℚ)

/-! ### `source_registry.py` -/

structure SourceMetadata where
  tier : Nat
  sourceType : String
  risk : String
  language : String
  parserKind : String
  fallbackUrl : Option String := none
  displayName : Option String := none
deriving DecidableEq, Repr

/-- `EXACT_SOURCE_METADATA`. -/
def exactSourceMetadata : List (String × SourceMetadata) :=
  [ ("google_trends",
      { tier := 3, sourceType := "search", risk := "medium", language := "en",
        parserKind := "rss",
        fallbackUrl := some "https://trends.google.com/trending/rss?geo=US",
        displayName := some "Google Trends" }),
    ("hackernews",
      { tier := 2, sourceType := "community", risk := "low", language := "en",
        parserKind := "json_api",
        fallbackUrl := some "https://hnrss.org/frontpage",
        displayName := some "Hacker News" }),
    ("lobsters",
      { tier := 2, sourceType := "community", risk := "low", language := "en",
        parserKind := "rss",
        fallbackUrl := some "https://lobste.rs/rss",
        displayName := some "Lobsters" }),
    ("github_trending",
      { tier := 3, sourceType := "community", risk := "low", language := "en",
        parserKind := "html_scrape",
        fallbackUrl := some "https://api.gitterapp.com/repositories?language=python&since=daily",
        displayName := some "GitHub Trending" }),
    ("product_hunt",
      { tier := 3, sourceType := "product", risk := "low", language := "en",
        parserKind := "rss",
        fallbackUrl := some "https://www.producthunt.com/feed",
        displayName := some "Product Hunt" }),
    ("devto",
      { tier := 3, sourceType := "community", risk := "low", language := "en",
        parserKind := "json_api",
        fallbackUrl := some "https://dev.to/api/articles?top=1&per_page=15",
        displayName := some "Dev.to" }),
    ("slashdot",
      { tier := 3, sourceType := "news", risk := "low", language := "en",
        parserKind := "rss",
        fallbackUrl := some "https://rss.slashdot.org/Slashdot/slashdotMain",
        displayName := some "Slashdot" }),
    ("ars_features",
      { tier := 2, sourceType := "news", risk := "low", language := "en",
        parserKind := "rss",
        fallbackUrl := some "https://feeds.arstechnica.com/arstechnica/features",
        displayName := some "Ars Features" }),
    ("wikipedia_current",
      { tier := 3, sourceType := "reference", risk := "low", language := "en",
        parserKind := "html_scrape",
        fallbackUrl := some "https://en.wikipedia.org/w/api.php?action=parse&page=Portal:Current_events&format=json&prop=text&formatversion=2",
        displayName := some "Wikipedia Current" }),
    ("cmmc_linkedin",
      { tier := 3, sourceType := "social", risk := "medium", language := "en",
        parserKind := "apify", fallbackUrl := none,
        displayName := some "LinkedIn" }) ]

/-- `PREFIX_SOURCE_METADATA`: ordered key-start rules for generated keys. -/
def startRuleSourceMetadata : List (String × SourceMetadata) :=
  [ ("news_",
      { tier := 1, sourceType := "news", risk := "low", language := "en",
        parserKind := "rss", displayName := some "News" }),
    ("politics_",
      { tier := 2, sourceType := "news", risk := "low", language := "en",
        parserKind := "rss", displayName := some "Politics" }),
    ("science_",
      { tier := 2, sourceType := "news", risk := "low", language := "en",
        parserKind := "rss", displayName := some "Science" }),
    ("finance_",
      { tier := 2, sourceType := "news", risk := "low", language := "en",
        parserKind := "rss", displayName := some "Finance" }),
    ("sports_",
      { tier := 3, sourceType := "news", risk := "low", language := "en",
        parserKind := "rss", displayName := some "Sports" }),
    ("entertainment_",
      { tier := 3, sourceType := "news", risk := "low", language := "en",
        parserKind := "rss", displayName := some "Entertainment" }),
    ("tech_",
      { tier := 2, sourceType := "news", risk := "low", language := "en",
        parserKind := "rss", displayName := some "Tech" }),
    ("reddit_",
      { tier := 4, sourceType := "social", risk := "medium", language := "en",
        parserKind := "rss", displayName := some "Reddit" }),
    ("cmmc_reddit_",
      { tier := 4, sourceType := "social", risk := "medium", language := "en",
        parserKind := "rss", displayName := some "Reddit" }),
    ("cmmc_",
      { tier := 2, sourceType := "compliance", risk := "low", language := "en",
        parserKind := "rss", displayName := some "CMMC" }) ]

def defaultSourceMetadata : SourceMetadata :=
  { tier := 4, sourceType := "other", risk := "medium", language := "en",
    parserKind := "unknown", displayName := some "Source" }

/-- `source.startswith(p)` evaluated on character lists so the kernel
can reduce it. -/
def strStartsWith (s p : String) : Bool := s.toList.take p.toList.length == p.toList

/-- `get_source_metadata`: exact key, then the first matching start rule,
else the default. -/
def getSourceMetadata (source : String) : SourceMetadata :=
  match lookupA exactSourceMetadata source with
  | some m => m
  | none =>
    let rec firstRule : List (String × SourceMetadata) → SourceMetadata
      | [] => defaultSourceMetadata
      | (p, m) :: rest => if strStartsWith source p then m else firstRule rest
    firstRule startRuleSourceMetadata

/-- Tier factor of `source_quality_multiplier` (lower tier, stronger
boost; `0.90` is the table's default for a tier outside 1–4). -/
def tierBoostOf (tier : Nat) : ℚ :=
  if tier = 1 then 1.30
  else if tier = 2 then 1.18
  else if tier = 3 then 1.05
  else if tier = 4 then 0.95
  else 0.90

/-- Risk factor of `source_quality_multiplier` (`0.95` is the table's
default for an unknown risk level). -/
def riskAdjustmentOf (risk : String) : ℚ :=
  if risk = "low" then 1.00
  else if risk = "medium" then 0.95
  else if risk = "high" then 0.88
  else 0.95

/-- `source_quality_multiplier`: tier boost times risk adjustment. -/
def sourceQualityMultiplier (source : String) : ℚ :=
  tierBoostOf (getSourceMetadata source).tier *
    riskAdjustmentOf (getSourceMetadata source).risk

/-! ### The `Trend` dataclass (`collect_trends.py`)

`source_metadata` and `source_label` (display-only denormalizations) are
not referenced by any verified property and are omitted from the record;
`timestamp` is the already-parsed value as epoch seconds (the
`parse_timestamp` string/float coercions are outside the claims). -/

structure Trend where
  title : String
  source : String
  url : Option String := none
  description : Option String := none
  category : Option String := none
  score : ℚ := 1
  keywords : List String := []
  timestamp : Int := 0
  imageUrl : Option String := none
  corroboratingSources : List String := []
  corroboratingUrls : List String := []
  sourceDiversity : Nat := 1
deriving DecidableEq, Repr

/-- Stop words of `Trend._extract_keywords`. -/
def keywordStopWords : List String :=
  ["the", "a", "an", "and", "or", "but", "in", "on", "at", "to", "for", "of",
   "with", "by", "from", "as", "is", "was", "are", "were", "been", "be",
   "have", "has", "had", "do", "does", "did", "will", "would", "could",
   "should", "may", "might", "must", "shall", "can", "need", "this", "that",
   "these", "those", "it", "its", "they", "them", "what", "which", "who",
   "whom", "whose", "where", "when", "why", "how", "all", "each", "every",
   "both", "few", "more", "most", "other", "some", "such", "no", "not",
   "only", "own", "same", "so", "than", "too", "very", "just", "about",
   "after", "before", "between", "into", "through", "during", "above",
   "below", "up", "down", "out", "off", "over", "under", "again", "further",
   "then", "once", "here", "there", "new", "says", "said", "get", "got",
   "getting", "make", "made", "making", "know", "think", "take", "see",
   "come", "want", "look", "use", "find", "give", "tell", "ask", "work",
   "seem", "feel", "try", "leave", "call", "keep", "let", "begin", "show",
   "hear", "play", "run", "move", "like", "live", "believe", "hold",
   "bring", "happen", "write", "provide", "sit", "stand", "lose", "pay",
   "meet", "include", "continue", "set", "learn", "change", "lead",
   "understand", "watch", "follow", "stop", "create", "speak", "read",
   "allow", "add", "spend", "grow", "open", "walk", "win", "offer",
   "remember", "love", "consider", "appear", "buy", "wait", "serve", "die",
   "send", "expect", "build", "stay", "fall", "cut", "reach", "kill",
   "remain", "suggest", "raise", "pass", "sell", "require", "report",
   "decide", "pull", "breaking", "update", "latest", "news", "today"]

/-- `Trend._extract_keywords`: tokenize the lowered title with
punctuation stripped, drop stop words, short words and digit runs, keep
the first five. -/
def extractKeywords (title : String) : List String :=
  let words := splitWsChars (lowerWordChars title) []
  (words.filter (fun w =>
    ¬ keywordStopWords.contains w ∧ 2 < w.length ∧ ¬ isDigitStr w)).take 5

/-- Truthiness of an optional Python string (`None` and `""` are falsy). -/
def optTruthy : Option String → Bool
  | none => false
  | some s => ¬ (s = "")

/-- `Trend.__post_init__` (timestamp already parsed; metadata/label
denormalizations omitted, see `Trend`). -/
def postInit (t : Trend) : Trend :=
  let keywords := if t.keywords.isEmpty then extractKeywords t.title else t.keywords
  let cs :=
    if t.corroboratingSources.isEmpty then [t.source]
    else if t.corroboratingSources.contains t.source then t.corroboratingSources
    else t.corroboratingSources ++ [t.source]
  let urls :=
    if t.corroboratingUrls.isEmpty then
      match t.url with
      | some u => if u = "" then [] else [u]
      | none => []
    else
      match t.url with
      | some u =>
        if u ≠ "" ∧ ¬ t.corroboratingUrls.contains u then t.corroboratingUrls ++ [u]
        else t.corroboratingUrls
      | none => t.corroboratingUrls
  { t with
    keywords := keywords,
    corroboratingSources := cs,
    corroboratingUrls := urls,
    sourceDiversity := max 1 (dedupL cs).length }

/-- `Trend.register_corroboration(other)`: merge the corroboration
envelope of a duplicate trend into `t`. -/
def registerCorroboration (t other : Trend) : Trend :=
  let otherSources :=
    if other.corroboratingSources.isEmpty then [other.source]
    else other.corroboratingSources
  let cs := otherSources.foldl
    (fun acc s => if ¬ (s = "") ∧ ¬ acc.contains s then acc ++ [s] else acc)
    t.corroboratingSources
  let urls := other.corroboratingUrls.foldl
    (fun acc u => if ¬ (u = "") ∧ ¬ acc.contains u then acc ++ [u] else acc)
    t.corroboratingUrls
  let description :=
    match other.description with
    | none => t.description
    | some od =>
      if od = "" then t.description
      else if ¬ optTruthy t.description then some od
      else if ((t.description.getD "").length < od.length) then some od
      else t.description
  let imageUrl :=
    if ¬ optTruthy t.imageUrl ∧ optTruthy other.imageUrl then other.imageUrl
    else t.imageUrl
  let timestamp := if t.timestamp < other.timestamp then other.timestamp else t.timestamp
  { t with
    corroboratingSources := cs,
    corroboratingUrls := urls,
    description := description,
    imageUrl := imageUrl,
    timestamp := timestamp,
    sourceDiversity := max 1 (dedupL cs).length }

/-! ### Fetch layer (`TrendCollector` in `collect_trends.py`,
profiles from `source_catalog.py`)

The `requests.Session` is abstracted as a transport oracle
`Nat → NetResult` indexed by a running network-call counter; header
merging, timeouts and retry sleeps are resolved exactly as in the code
but have no observable effect on the modelled behaviour (the oracle
stands for the session), so only the resolved attempt count is kept. -/

/-- Outcome of one `session.get` call: an exception or a response.  A
response keeps the fields the collector inspects; `content` stands for
the body bytes (ASCII-faithful). -/
structure FeedResponse where
  statusCode : Nat
  contentType : String
  content : String
  url : String
deriving DecidableEq, Repr

inductive NetResult where
  | err (msg : String)
  | resp (r : FeedResponse)
deriving DecidableEq, Repr

/-- `DOMAIN_FETCH_PROFILES` (`source_catalog.py`): per-hostname attempt
count, retry delay and timeout; delays/timeouts do not affect the
modelled observable behaviour and only `attempts` is kept. -/
def domainAttempts : List (String × Nat) :=
  [("feeds.washingtonpost.com", 3), ("breakingdefense.com", 2)]

/-- `urlparse(url).hostname or ""` for the `scheme://host/...` URLs in
the catalog: the part between `"://"` and the next delimiter, lowered. -/
def hostOf (url : String) : String :=
  let rec afterScheme : List Char → List Char
    | ':' :: '/' :: '/' :: rest => rest
    | _ :: rest => afterScheme rest
    | [] => []
  let host := (afterScheme url.toList).takeWhile
    (fun c => ¬ (c = '/' ∨ c = ':' ∨ c = '?' ∨ c = '#'))
  String.mk (host.map Char.toLower)

/-- `ct contains "xml" or "rss"`, on character lists. -/
def containsSub (s : String) (pat : List Char) : Bool :=
  (List.range s.toList.length).any
    (fun i => (s.toList.drop i).take pat.length == pat)

/-- `TrendCollector._is_feed_response`: content-type mentions xml/rss,
or a feed marker occurs in the first 120 bytes. -/
def isFeedResponse (r : FeedResponse) : Bool :=
  let ct := String.mk (r.contentType.toList.map Char.toLower)
  if containsSub ct ['x', 'm', 'l'] ∨ containsSub ct ['r', 's', 's'] then true
  else
    let head := String.mk ((r.content.toList.take 120).map Char.toLower)
    containsSub head ['<', 'r', 's', 's'] ∨ containsSub head ['<', '?', 'x', 'm', 'l'] ∨
      containsSub head ['<', 'f', 'e', 'e', 'd']

/-- One cached feed entry (both tiers share this shape; the persisted
tier's base64 round-trip always succeeds on entries the collector wrote,
so `content` is stored directly). -/
structure CacheEntry where
  timestamp : Int
  content : String
  contentType : String
  statusCode : Nat
  url : String
deriving DecidableEq, Repr

/-- Per-scope circuit-breaker state (`feed_failures[scope]`). -/
structure CircuitState where
  count : Nat
  cooldownUntil : Int
deriving DecidableEq, Repr

/-- The collector's mutable fetch state. -/
structure FetchState where
  feedFailures : List (String × CircuitState) := []
  feedCache : List (String × CacheEntry) := []
  persistentFeedCache : List (String × CacheEntry) := []
  persistentCacheDirty : Bool := false
deriving DecidableEq, Repr

def feedCacheTtlSeconds : Int := 10 * 60
def feedPersistentTtlSeconds : Int := 24 * 60 * 60
def feedCooldownSeconds : Int := 5 * 60
def feedFailureThreshold : Nat := 2

/-- `TrendCollector._feed_scope` (`source_key or url`; `""` is falsy). -/
def feedScope (sourceKey : Option String) (url : String) : String :=
  match sourceKey with
  | some s => if s = "" then url else s
  | none => url

/-- `TrendCollector._is_feed_on_cooldown`: also yields the possibly
mutated state (an expired positive deadline deletes the scope's entry). -/
def isFeedOnCooldown (st : FetchState) (scope : String) (now : Int) :
    Bool × FetchState :=
  match lookupA st.feedFailures scope with
  | none => (false, st)
  | some cs =>
    if now < cs.cooldownUntil then (true, st)
    else if 0 < cs.cooldownUntil then
      (false, { st with feedFailures := eraseA st.feedFailures scope })
    else (false, st)

/-- `TrendCollector._record_feed_failure`. -/
def recordFeedFailure (st : FetchState) (scope : String) (now : Int) : FetchState :=
  let cs := (lookupA st.feedFailures scope).getD { count := 0, cooldownUntil := 0 }
  let newCount := cs.count + 1
  let cs' :=
    if feedFailureThreshold ≤ newCount then
      { count := newCount, cooldownUntil := now + feedCooldownSeconds }
    else { count := newCount, cooldownUntil := cs.cooldownUntil }
  { st with feedFailures := insertA st.feedFailures scope cs' }

/-- `TrendCollector._record_feed_success`. -/
def recordFeedSuccess (st : FetchState) (scope : String) : FetchState :=
  { st with feedFailures := eraseA st.feedFailures scope }

/-- `TrendCollector._cache_feed_response`: write both tiers. -/
def cacheFeedResponse (st : FetchState) (scope : String) (r : FeedResponse)
    (url : String) (now : Int) : FetchState :=
  let entry : CacheEntry :=
    { timestamp := now, content := r.content, contentType := r.contentType,
      statusCode := r.statusCode, url := url }
  { st with
    feedCache := insertA st.feedCache scope entry,
    persistentFeedCache := insertA st.persistentFeedCache scope entry,
    persistentCacheDirty := true }

/-- `TrendCollector._response_from_cached` (entries written by the
collector always carry decodable content, so this is total). -/
def responseFromCached (e : CacheEntry) : FeedResponse :=
  { statusCode := e.statusCode, contentType := e.contentType,
    content := e.content, url := e.url }

/-- The persisted-tier half of `_get_cached_feed_response` (24-hour
TTL, stale entries evicted and the cache marked dirty). -/
def persistentSideLookup (st : FetchState) (scope : String) (now : Int) :
    Option FeedResponse × FetchState :=
  match lookupA st.persistentFeedCache scope with
  | none => (none, st)
  | some e =>
    if feedPersistentTtlSeconds < now - e.timestamp then
      (none, { st with
        persistentFeedCache := eraseA st.persistentFeedCache scope,
        persistentCacheDirty := true })
    else (some (responseFromCached e), st)

/-- `TrendCollector._get_cached_feed_response`: in-memory tier first
(10-minute TTL), then the persisted tier (24-hour TTL); stale entries
are evicted. -/
def getCachedFeedResponse (st : FetchState) (scope : String) (now : Int) :
    Option FeedResponse × FetchState :=
  match lookupA st.feedCache scope with
  | some e =>
    if now - e.timestamp ≤ feedCacheTtlSeconds then (some (responseFromCached e), st)
    else persistentSideLookup { st with feedCache := eraseA st.feedCache scope } scope now
  | none => persistentSideLookup st scope now

/-- Python membership in `allowed_status = (200, 301, 302)`. -/
def allowedStatus (code : Nat) : Bool := code = 200 ∨ code = 301 ∨ code = 302

/-- The attempt loop of `_fetch_rss`: up to `k` transport calls starting
at call index `idx`; stops at the first response that passes the status
and feed-content checks.  Returns the accepted response (if any) and the
number of calls made. -/
def attemptLoop (transport : Nat → NetResult) (idx : Nat) :
    Nat → Option FeedResponse × Nat
  | 0 => (none, 0)
  | k + 1 =>
    match transport idx with
    | .err _ =>
      let (r, c) := attemptLoop transport (idx + 1) k
      (r, c + 1)
    | .resp r =>
      if ¬ allowedStatus r.statusCode then
        let (r', c) := attemptLoop transport (idx + 1) k
        (r', c + 1)
      else if ¬ isFeedResponse r then
        let (r', c) := attemptLoop transport (idx + 1) k
        (r', c + 1)
      else (some r, 1)

/-- Serving the total-failure path of `_fetch_rss`: record the failure,
then fall back to cached data. -/
def onTotalFailure (st : FetchState) (scope : String) (now : Int) (calls : Nat) :
    Option FeedResponse × Nat × FetchState :=
  let st := recordFeedFailure st scope now
  let (cached, st) := getCachedFeedResponse st scope now
  (cached, calls, st)

/-- The body of one `_fetch_rss` invocation.  All `time.time()` readings
within one invocation are modelled by the single clock value `now`; the
result is (returned response, number of network calls made, new state).  `fbFetch` carries the
`allow_fallback` flag: `some doFetch` stands for `allow_fallback=True`
with `doFetch` the recursive fetch used for the fallback endpoint, and
`none` for `allow_fallback=False` (no chaining). -/
def fetchRssBody (transport : Nat → NetResult)
    (fbFetch : Option (FetchState → Nat → String → Option String → Option String →
      Int → Option FeedResponse × Nat × FetchState))
    (st : FetchState) (callIdx : Nat) (url : String)
    (sourceKey fallbackUrl : Option String) (now : Int) :
    Option FeedResponse × Nat × FetchState :=
  let scope := feedScope sourceKey url
  match isFeedOnCooldown st scope now with
  | (true, st) =>
    let (cached, st) := getCachedFeedResponse st scope now
    (cached, 0, st)
  | (false, st) =>
    let metadataFallback := (getSourceMetadata (feedScope sourceKey "")).fallbackUrl
    let fallbackUrl :=
      match fallbackUrl with
      | some f => if f = "" then metadataFallback else some f
      | none => metadataFallback
    let attempts := max 1 ((lookupA domainAttempts (hostOf url)).getD 1)
    match attemptLoop transport callIdx attempts with
    | (some r, calls) =>
      let st := recordFeedSuccess st scope
      let st := cacheFeedResponse st scope r url now
      (some r, calls, st)
    | (none, calls) =>
      match fbFetch, fallbackUrl with
      | some doFetch, some fb =>
        if ¬ (fb = "") ∧ ¬ (fb = url) then
          match doFetch st (callIdx + calls) fb sourceKey none now with
          | (some r, fbCalls, st) =>
            (some r, calls + fbCalls, recordFeedSuccess st scope)
          | (none, fbCalls, st) => onTotalFailure st scope now (calls + fbCalls)
        else onTotalFailure st scope now calls
      | _, _ => onTotalFailure st scope now calls

/-- `_fetch_rss` at a given fallback-recursion depth: the top-level call
runs at depth 1 (`allow_fallback=True`) and the fallback fetch at depth
0 (`allow_fallback=False`). -/
def fetchRssAux (transport : Nat → NetResult) :
    Nat → FetchState → Nat → String → Option String → Option String → Int →
      Option FeedResponse × Nat × FetchState
  | 0 => fetchRssBody transport none
  | d + 1 => fetchRssBody transport (some (fetchRssAux transport d))

def fetchRss (st : FetchState) (transport : Nat → NetResult) (callIdx : Nat)
    (url : String) (sourceKey : Option String) (fallbackUrl : Option String)
    (allowFallback : Bool) (now : Int) :
    Option FeedResponse × Nat × FetchState :=
  fetchRssAux transport (if allowFallback then 1 else 0) st callIdx url sourceKey
    fallbackUrl now

/-! ### Deduplicator (`TrendCollector._deduplicate`) -/

def defaultTrend : Trend := { title := "", source := "" }

def trendAt (ts : List Trend) (i : Nat) : Trend := ts.getD i defaultTrend

/-- Stop words local to `_deduplicate`. -/
def dedupStopWords : List String :=
  ["the", "a", "an", "and", "or", "to", "of", "in", "for", "on", "with",
   "from", "after", "before", "about", "update", "latest", "news", "today"]

/-- Token set of a title (length ≥ 3, non-digit, non-stop-word tokens of
the normalized title; all split tokens when that filter is empty),
as a first-occurrence duplicate-free list. -/
def titleTokens (normalized : String) : List String :=
  let toks := dedupL ((splitWs normalized).filter (fun tok =>
    3 ≤ tok.length ∧ ¬ isDigitStr tok ∧ ¬ dedupStopWords.contains tok))
  if toks.isEmpty then dedupL (splitWs normalized) else toks

/-- The four duplicate criteria of `_deduplicate`, in source order:
token-overlap ratio ≥ `simThreshold`, Jaccard ≥ `max(0.55,
simThreshold - 0.25)`, whole-string `SequenceMatcher` ≥ `semThreshold`,
sorted-token-string `SequenceMatcher` ≥ `semThreshold`. -/
def isDupPair (simThreshold semThreshold : ℚ) (tI : List String) (nI : String)
    (tJ : List String) (nJ : String) : Bool :=
  let inter := (tI.filter (fun x => tJ.contains x)).length
  let overlapFrac : ℚ :=
    if tI.isEmpty ∨ tJ.isEmpty then 0
    else (inter : ℚ) / ((max 1 (min tI.length tJ.length) : Nat) : ℚ)
  let jaccard : ℚ :=
    if tI.isEmpty ∨ tJ.isEmpty then 0
    else (inter : ℚ) / ((max 1 (dedupL (tI ++ tJ)).length : Nat) : ℚ)
  (simThreshold ≤ overlapFrac) ∨
    (max 0.55 (simThreshold - 0.25) ≤ jaccard) ∨
    (semThreshold ≤ smScore nI nJ) ∨
    (semThreshold ≤ smScore (joinSpace (sortStrings tI)) (joinSpace (sortStrings tJ)))

def sharesToken (a b : List String) : Bool := a.any (fun tok => b.contains tok)

/-- The clustering pass: visit indices in order; an unassigned index
starts a cluster and absorbs every higher unassigned index that shares a
token and passes a duplicate criterion.  (The source's inverted index is
an enumeration device: the candidate set it yields for `i` is exactly
the ascending higher indices sharing at least one token.) -/
def clusterStep (tok : List (List String)) (nt : List String)
    (simThreshold semThreshold : ℚ) (n : Nat)
    (acc : List (List Nat) × List Nat) (i : Nat) : List (List Nat) × List Nat :=
  let (clusters, assigned) := acc
  if assigned.contains i then acc
  else
    let tI := tok.getD i []
    let nI := nt.getD i ""
    let cands := (List.range n).filter (fun j => i < j ∧ sharesToken tI (tok.getD j []))
    let inner := cands.foldl (fun (acc2 : List Nat × List Nat) j =>
      let (members, assigned2) := acc2
      if assigned2.contains j then acc2
      else if isDupPair simThreshold semThreshold tI nI (tok.getD j [])
          (nt.getD j "") then
        (members ++ [j], assigned2 ++ [j])
      else acc2) ([i], assigned ++ [i])
    (clusters ++ [inner.1], inner.2)

def buildClusters (tok : List (List String)) (nt : List String)
    (simThreshold semThreshold : ℚ) : List (List Nat) :=
  ((List.range tok.length).foldl
    (clusterStep tok nt simThreshold semThreshold tok.length) ([], [])).1

/-- The `_quality` key used to pick a cluster's canonical record:
source-quality-weighted score, additionally weighted by a corroboration
factor `1 + min((diversity - 1) * 0.05, 0.25)`, tie-broken by timestamp. -/
def qualityKey (t : Trend) : ℚ × Int :=
  (t.score * sourceQualityMultiplier t.source *
    (1 + min (((t.sourceDiversity : ℚ) - 1) * 0.05) 0.25),
   t.timestamp)

/-- Python tuple `>` on a quality key. -/
def pairGtb (a b : ℚ × Int) : Bool := b.1 < a.1 ∨ (a.1 = b.1 ∧ b.2 < a.2)

/-- `max(cluster, key=_quality)`: Python's `max` keeps the earliest
element among maximal keys. -/
def pickCanonicalIdx (ts : List Trend) (first : Nat) (rest : List Nat) : Nat :=
  rest.foldl (fun best j =>
    if pairGtb (qualityKey (trendAt ts j)) (qualityKey (trendAt ts best)) then j
    else best) first

/-- Collapse one cluster: a singleton passes through; otherwise every
non-canonical member is merged into the canonical one in cluster order. -/
def mergeCluster (ts : List Trend) (cluster : List Nat) : Trend :=
  match cluster with
  | [] => defaultTrend
  | [i] => trendAt ts i
  | first :: rest =>
    let ci := pickCanonicalIdx ts first rest
    ((first :: rest).filter (fun j => ¬ (j = ci))).foldl
      (fun acc j => registerCorroboration acc (trendAt ts j)) (trendAt ts ci)

/-- `TrendCollector._deduplicate` as a function of the trend list and
the two config thresholds. -/
def dedup (simThreshold semThreshold : ℚ) (trends : List Trend) : List Trend :=
  if trends.isEmpty then trends
  else
    let nt := trends.map (fun t => normalizeTitle t.title)
    let tok := nt.map titleTokens
    (buildClusters tok nt simThreshold semThreshold).map (mergeCluster trends)

/-! ### Scorer (`TrendCollector._calculate_scores`) -/

/-- `Counter.update(set(trend.keywords))` over all trends: for each
keyword, the number of records whose keyword set contains it. -/
def bumpCounter (c : List (String × Nat)) (kws : List String) : List (String × Nat) :=
  kws.foldl (fun c kw => insertA c kw ((lookupA c kw).getD 0 + 1)) c

def buildCounter (ts : List Trend) : List (String × Nat) :=
  ts.foldl (fun c t => bumpCounter c (dedupL t.keywords)) []

def countOf (c : List (String × Nat)) (kw : String) : Nat := (lookupA c kw).getD 0

/-- Membership in the `global_keywords` set (`count >= 3`). -/
def isGlobalKeyword (ts : List Trend) (kw : String) : Bool :=
  3 ≤ countOf (buildCounter ts) kw

/-- The corroboration-diversity boost factor of `_calculate_scores`
(`1.0` when diversity ≤ 1: the code multiplies only in that branch, and
multiplying by `1.0` is the identity). -/
def diversityFactor (d : Nat) : ℚ :=
  if 1 < d then 1 + min (((d : ℚ) - 1) * 0.08) 0.35 else 1

/-- The first three score updates of `_calculate_scores` (everything
before the diversity boost): tiered global-keyword boost, additive
multi-story bonus, source-quality multiplier. -/
def preDiversityScore (c : List (String × Nat)) (t : Trend) : ℚ :=
  let gMatch := (t.keywords.filter (fun kw => 3 ≤ countOf c kw)).length
  let s1 :=
    if 3 ≤ gMatch then t.score * 1.6
    else if gMatch = 2 then t.score * 1.35
    else if gMatch = 1 then t.score * 1.15
    else t.score
  let s2 := s1 + 0.1 * ((t.keywords.filter (fun kw => 1 < countOf c kw)).length : ℚ)
  s2 * sourceQualityMultiplier t.source

/-- The per-trend score update of `_calculate_scores`, given the global
keyword counter: tiered global-keyword boost, additive multi-story
bonus, source-quality multiplier, then the diversity boost. -/
def scoreStep (c : List (String × Nat)) (t : Trend) : Trend :=
  { t with score := preDiversityScore c t * diversityFactor t.sourceDiversity }

def calculateScores (ts : List Trend) : List Trend :=
  ts.map (scoreStep (buildCounter ts))

/-! ### Health checker (`source_health_check.py`) -/

/-- The health checker's own `SourceSpec` (the fields its logic reads). -/
structure HSourceSpec where
  key : String
  name : String
  url : String
  category : String
  kind : String
  selector : Option String := none
  jsonCountPath : Option String := none
deriving DecidableEq, Repr

/-- The value `_get_nested_value` extracts from a parsed JSON payload,
abstracted by shape (`_check_json` only inspects the shape). -/
inductive JsonTarget where
  | listOf (n : Nat)
  | dictOf (n : Nat)
  | nullv
  | other
deriving DecidableEq, Repr

/-- One probed HTTP response, with the parse outcomes the three checkers
read (`feedparser` and `BeautifulSoup` are external and abstracted as
data: entry count and bozo flag for feeds, nested-value shape for JSON,
selector match count for HTML). -/
structure ProbeResponse where
  statusCode : Nat
  contentType : String
  feedEntryCount : Nat
  feedBozo : Bool
  jsonTarget : JsonTarget
  htmlMatches : Nat
deriving DecidableEq, Repr

/-- Outcome of the single `session.get` a health check performs. -/
inductive ProbeOutcome where
  | err (msg : String)
  | resp (r : ProbeResponse)
deriving DecidableEq, Repr

structure CheckOutcome where
  status : String
  entryCount : Nat
  error : String
deriving DecidableEq, Repr

/-- `_check_rss`: zero entries degrade a healthy feed; a parse error
(`bozo`) with zero entries means down, with entries only degraded. -/
def checkRss (entryCount : Nat) (bozo : Bool) (bozoMsg : String) : CheckOutcome :=
  let status := if 0 < entryCount then "healthy" else "degraded"
  if bozo ∧ entryCount = 0 then
    { status := "down", entryCount := entryCount, error := bozoMsg }
  else if bozo then
    { status := "degraded", entryCount := entryCount, error := bozoMsg }
  else { status := status, entryCount := entryCount, error := "" }

/-- `_check_json`. -/
def checkJson (target : JsonTarget) : CheckOutcome :=
  let entryCount :=
    match target with
    | .listOf n => n
    | .dictOf n => n
    | .nullv => 0
    | .other => 1
  { status := if 0 < entryCount then "healthy" else "degraded",
    entryCount := entryCount, error := "" }

/-- `_check_html`. -/
def checkHtml (selector : Option String) (htmlMatches : Nat) : CheckOutcome :=
  match selector with
  | none => { status := "healthy", entryCount := 1, error := "" }
  | some sel =>
    if 0 < htmlMatches then { status := "healthy", entryCount := htmlMatches, error := "" }
    else { status := "down", entryCount := 0,
           error := "No matches for selector: " ++ sel }

/-- `check_source`: a single probe (one `session.get`), then a
transport-appropriate content check; any HTTP status ≥ 400 or raised
exception is down.  Latency and timestamps are not modelled. -/
def checkSource (source : HSourceSpec) (probe : ProbeOutcome) : CheckOutcome :=
  match probe with
  | .err msg => { status := "down", entryCount := 0, error := msg }
  | .resp r =>
    if 400 ≤ r.statusCode then
      { status := "down", entryCount := 0, error := "HTTP " ++ toString r.statusCode }
    else if source.kind = "rss" then
      checkRss r.feedEntryCount r.feedBozo "bozo"
    else if source.kind = "json" then
      checkJson r.jsonTarget
    else
      checkHtml source.selector r.htmlMatches

/-! ### Claim-side definitions

These do not translate the source; each follows the words of a spec
sentence under test and is compared against the source-translated
definition above. -/

/-- Claim-side (spec §4.4 / C4): a keyword is global when it occurs in
at least three distinct records, a record's keyword list counted as a
set. -/
def inRecordsCount (ts : List Trend) (kw : String) : Nat :=
  (ts.filter (fun t => t.keywords.contains kw)).length

/-- Claim-side (C4): the scorer's update written exactly in the claim's
order — tiered global-keyword multiplier, then the +0.10-per-keyword
bonus, then the source-quality multiplier (tier factor times risk
factor), then the diversity boost only when diversity exceeds 1. -/
def scoreClaimed (ts : List Trend) (t : Trend) : ℚ :=
  let globalCount := (t.keywords.filter (fun kw => 3 ≤ inRecordsCount ts kw)).length
  let boosted :=
    if globalCount = 1 then t.score * 1.15
    else if globalCount = 2 then t.score * 1.35
    else if 3 ≤ globalCount then t.score * 1.60
    else t.score
  let shared := (t.keywords.filter (fun kw => 1 < inRecordsCount ts kw)).length
  let withBonus := boosted + 0.10 * (shared : ℚ)
  let meta := getSourceMetadata t.source
  let tierFactor : ℚ :=
    if meta.tier = 1 then 1.30 else if meta.tier = 2 then 1.18
    else if meta.tier = 3 then 1.05 else if meta.tier = 4 then 0.95 else 0.90
  let riskFactor : ℚ :=
    if meta.risk = "low" then 1.00 else if meta.risk = "medium" then 0.95
    else if meta.risk = "high" then 0.88 else 0.95
  let withQuality := withBonus * (tierFactor * riskFactor)
  if 1 < t.sourceDiversity then
    withQuality * (1 + min (((t.sourceDiversity : ℚ) - 1) * 0.08) 0.35)
  else withQuality

/-- Claim-side (C8): the pair the claim says the canonical record
maximizes — source-quality-weighted score with timestamp tie-break,
with no diversity weighting. -/
def claimedQualityKey (t : Trend) : ℚ × Int :=
  (t.score * sourceQualityMultiplier t.source, t.timestamp)

/-- Claim-side (spec §4.5 / C5): a health check that reuses the fetch
client's per-domain attempt logic and fallback endpoint, classifying a
source as flaky exactly when it succeeded only after at least one failed
attempt or only via its fallback endpoint, and as down when primary
attempts and fallback are both exhausted.  A probe attempt is counted
failed on an exception or an HTTP status ≥ 400. -/
def checkSourceClaim (source : HSourceSpec) (transport : Nat → ProbeOutcome) :
    String :=
  let attempts := max 1 ((lookupA domainAttempts (hostOf source.url)).getD 1)
  let contentStatus (r : ProbeResponse) : String :=
    if source.kind = "rss" then (checkRss r.feedEntryCount r.feedBozo "bozo").status
    else if source.kind = "json" then (checkJson r.jsonTarget).status
    else (checkHtml source.selector r.htmlMatches).status
  let rec tryFrom (idx : Nat) : Nat → Option (Nat × ProbeResponse)
    | 0 => none
    | k + 1 =>
      match transport idx with
      | .err _ => tryFrom (idx + 1) k
      | .resp r => if 400 ≤ r.statusCode then tryFrom (idx + 1) k else some (idx, r)
  match tryFrom 1 attempts with
  | some (idx, r) =>
    if 1 < idx then
      if contentStatus r = "down" then "down" else "flaky"
    else contentStatus r
  | none =>
    match (getSourceMetadata source.key).fallbackUrl with
    | some fb =>
      match transport (attempts + 1) with
      | .err _ => "down"
      | .resp r =>
        if 400 ≤ r.statusCode then "down"
        else if contentStatus r = "down" then "down"
        else if fb = source.url then contentStatus r else "flaky"
    | none => "down"

/-! ### Supporting lemmas -/

theorem lookupA_eraseA_ne {α : Type} (l : List (String × α)) (k k' : String)
    (h : k ≠ k') : lookupA (eraseA l k) k' = lookupA l k' := by
  induction l with
  | nil => rfl
  | cons p rest ih =>
    have hsymm : ¬ (k' = k) := fun hc => h hc.symm
    by_cases hp : p.1 = k
    · have hne : ¬ p.1 = k' := by rw [hp]; exact h
      simpa [eraseA, List.filter_cons, hp, lookupA, hne, h, hsymm] using ih
    · by_cases hp' : p.1 = k'
      · simp [eraseA, List.filter_cons, hp, lookupA, hp', h, hsymm]
      · simpa [eraseA, List.filter_cons, hp, lookupA, hp', h, hsymm] using ih

theorem countOf_insertA (c : List (String × Nat)) (k : String) (v : Nat) (kw : String) :
    countOf (insertA c k v) kw = if k = kw then v else countOf c kw := by
  by_cases h : k = kw
  · simp [countOf, h, lookupA_insertA_self]
  · simp [countOf, h, lookupA_insertA_ne c k kw v h, lookupA_eraseA_ne c k kw h]

theorem countOf_bumpCounter (kws : List String) (c : List (String × Nat)) (kw : String) :
    countOf (bumpCounter c kws) kw = countOf c kw + kws.count kw := by
  induction kws generalizing c with
  | nil => simp [bumpCounter]
  | cons x ks ih =>
    show countOf (bumpCounter (insertA c x ((lookupA c x).getD 0 + 1)) ks) kw = _
    rw [ih, countOf_insertA, List.count_cons]
    by_cases h : x = kw
    · subst h
      simp [countOf]
      omega
    · have h' : ¬ (kw = x) := fun hc => h hc.symm
      simp [countOf, h, h']

theorem countOf_buildCounter (ts : List Trend) (kw : String) :
    countOf (buildCounter ts) kw = inRecordsCount ts kw := by
  suffices h : ∀ (l : List Trend) (c : List (String × Nat)),
      countOf (l.foldl (fun c t => bumpCounter c (dedupL t.keywords)) c) kw =
        countOf c kw + inRecordsCount l kw by
    have := h ts []
    simpa [buildCounter, countOf, lookupA] using this
  intro l
  induction l with
  | nil => simp [inRecordsCount]
  | cons t rest ih =>
    intro c
    show countOf (rest.foldl _ (bumpCounter c (dedupL t.keywords))) kw = _
    rw [ih, countOf_bumpCounter, count_dedupL]
    by_cases hm : kw ∈ t.keywords
    · rw [if_pos hm]
      have : inRecordsCount (t :: rest) kw = inRecordsCount rest kw + 1 := by
        simp [inRecordsCount, List.filter_cons, List.elem_iff, hm]
      omega
    · rw [if_neg hm]
      have : inRecordsCount (t :: rest) kw = inRecordsCount rest kw := by
        simp [inRecordsCount, List.filter_cons, List.elem_iff, hm]
      omega

/-- The invariant claimed for every topic record. -/
def corroborationInvariant (t : Trend) : Prop :=
  t.corroboratingSources ≠ [] ∧ t.source ∈ t.corroboratingSources ∧
    t.sourceDiversity = (dedupL t.corroboratingSources).length

instance (t : Trend) : Decidable (corroborationInvariant t) := by
  unfold corroborationInvariant; infer_instance

theorem max_one_dedupL (cs : List String) (a : String) (h : a ∈ cs) :
    max 1 (dedupL cs).length = (dedupL cs).length := by
  have hm : a ∈ dedupL cs := (mem_dedupL a cs).mpr h
  have : 0 < (dedupL cs).length := List.length_pos.mpr (List.ne_nil_of_mem hm)
  omega

theorem postInit_mem_source (t : Trend) :
    t.source ∈ (postInit t).corroboratingSources := by
  simp only [postInit]
  by_cases h1 : t.corroboratingSources.isEmpty
  · simp [h1]
  · by_cases h2 : t.corroboratingSources.contains t.source
    · have h2' : t.source ∈ t.corroboratingSources := List.elem_iff.mp h2
      simp [h1, h2, h2']
    · have h2' : t.source ∉ t.corroboratingSources := fun hm => h2 (List.elem_iff.mpr hm)
      simp [h1, h2, h2']

theorem postInit_diversity (t : Trend) :
    (postInit t).sourceDiversity = (dedupL (postInit t).corroboratingSources).length := by
  have hm := postInit_mem_source t
  show max 1 (dedupL (postInit t).corroboratingSources).length = _
  exact max_one_dedupL _ t.source hm

theorem register_mem_source (t other : Trend) (h : t.source ∈ t.corroboratingSources) :
    t.source ∈ (registerCorroboration t other).corroboratingSources := by
  simp only [registerCorroboration]
  apply foldl_inv (fun acc : List String => t.source ∈ acc)
  · exact h
  · intro acc s _ hacc
    dsimp only
    split
    · exact List.mem_append_left _ hacc
    · exact hacc

theorem register_source_eq (t other : Trend) :
    (registerCorroboration t other).source = t.source := rfl


theorem sourceQualityMultiplier_pos (s : String) : 0 < sourceQualityMultiplier s := by
  have h1 : 0 < tierBoostOf (getSourceMetadata s).tier := by
    unfold tierBoostOf; split_ifs <;> norm_num
  have h2 : 0 < riskAdjustmentOf (getSourceMetadata s).risk := by
    unfold riskAdjustmentOf; split_ifs <;> norm_num
  exact mul_pos h1 h2

theorem preDiversityScore_nonneg (c : List (String × Nat)) (t : Trend)
    (h : 0 ≤ t.score) : 0 ≤ preDiversityScore c t := by
  unfold preDiversityScore
  have hqm := sourceQualityMultiplier_pos t.source
  have hbonus : (0:ℚ) ≤
      0.1 * ((t.keywords.filter (fun kw => 1 < countOf c kw)).length : ℚ) := by
    positivity
  have hs1 : (0:ℚ) ≤
      (if 3 ≤ (t.keywords.filter (fun kw => 3 ≤ countOf c kw)).length then t.score * 1.6
       else if (t.keywords.filter (fun kw => 3 ≤ countOf c kw)).length = 2 then t.score * 1.35
       else if (t.keywords.filter (fun kw => 3 ≤ countOf c kw)).length = 1 then t.score * 1.15
       else t.score) := by
    split_ifs <;> nlinarith
  nlinarith

/-! ### Claim theorems -/

/-- C1: for every topic record, at construction (`__post_init__`) and
after every corroboration merge (`register_corroboration`), the
corroborating-sources list is non-empty and contains the record's own
source key, and `source_diversity` equals the number of distinct
entries in that list. -/
theorem trend_corroboration_invariant (t other : Trend) :
    corroborationInvariant (postInit t) ∧
      (corroborationInvariant t →
        corroborationInvariant (registerCorroboration t other)) := by
  constructor
  · exact ⟨List.ne_nil_of_mem (postInit_mem_source t), postInit_mem_source t,
      postInit_diversity t⟩
  · rintro ⟨hne, hmem, hdiv⟩
    have hmem' : t.source ∈ (registerCorroboration t other).corroboratingSources :=
      register_mem_source t other hmem
    refine ⟨List.ne_nil_of_mem hmem', hmem', ?_⟩
    show max 1 (dedupL (registerCorroboration t other).corroboratingSources).length = _
    exact max_one_dedupL _ t.source hmem'

def w1trend : Trend :=
  { title := "Quantum Chips Shift Industry", source := "news_alpha",
    url := some "https://a.example/q" }

def w1other : Trend :=
  { title := "Quantum Chips Shift Industry Again", source := "tech_beta",
    score := 2, url := some "https://b.example/q",
    corroboratingSources := ["tech_beta"], sourceDiversity := 1 }

theorem trend_corroboration_invariant_witness :
    corroborationInvariant (postInit w1trend) ∧
      corroborationInvariant (registerCorroboration (postInit w1trend) w1other) :=
  ⟨(trend_corroboration_invariant w1trend w1other).1,
   (trend_corroboration_invariant (postInit w1trend) w1other).2 (by decide)⟩

/-- C6: during scoring, a keyword is global exactly when it occurs in at
least 3 distinct records (each record's keyword list counted as a set);
in particular a keyword in exactly 3 distinct records is global and one
in exactly 2 is not. -/
theorem global_keyword_threshold (ts : List Trend) (kw : String) :
    (isGlobalKeyword ts kw = true ↔ 3 ≤ inRecordsCount ts kw) ∧
      (inRecordsCount ts kw = 3 → isGlobalKeyword ts kw = true) ∧
      (inRecordsCount ts kw = 2 → isGlobalKeyword ts kw = false) := by
  have hiff : isGlobalKeyword ts kw = true ↔ 3 ≤ inRecordsCount ts kw := by
    simp [isGlobalKeyword, countOf_buildCounter]
  refine ⟨hiff, fun h3 => hiff.mpr (by omega), fun h2 => ?_⟩
  by_contra hfalse
  have := hiff.mp (by
    cases hb : isGlobalKeyword ts kw
    · exact absurd hb hfalse
    · rfl)
  omega

def w6trend (t : String) (kws : List String) : Trend :=
  { title := t, source := "news_w", keywords := kws }

theorem global_keyword_threshold_witness :
    isGlobalKeyword [w6trend "a" ["ai", "x"], w6trend "b" ["ai"],
      w6trend "c" ["ai", "y"]] "ai" = true ∧
    isGlobalKeyword [w6trend "a" ["ml", "x"], w6trend "b" ["ml"],
      w6trend "c" ["y"]] "ml" = false :=
  ⟨(global_keyword_threshold _ "ai").2.1 (by decide),
   (global_keyword_threshold _ "ml").2.2 (by decide)⟩

/-- C7: with keywords, base score and source held fixed, the scorer's
final score is monotonically non-decreasing in corroboration diversity:
the diversity factor is monotone in the diversity count, so a larger
diversity never lowers the resulting score. -/
theorem diversity_monotone (d1 d2 : Nat) (h : d1 ≤ d2) :
    diversityFactor d1 ≤ diversityFactor d2 ∧
      ∀ (c : List (String × Nat)) (t : Trend), 0 ≤ t.score →
        (scoreStep c { t with sourceDiversity := d1 }).score ≤
          (scoreStep c { t with sourceDiversity := d2 }).score := by
  have hfac : diversityFactor d1 ≤ diversityFactor d2 := by
    unfold diversityFactor
    by_cases h1 : 1 < d1
    · have h2 : 1 < d2 := lt_of_lt_of_le h1 h
      rw [if_pos h1, if_pos h2]
      have hcast : (d1 : ℚ) ≤ (d2 : ℚ) := by exact_mod_cast h
      have hmul : ((d1 : ℚ) - 1) * 0.08 ≤ ((d2 : ℚ) - 1) * 0.08 := by nlinarith
      exact add_le_add_left (min_le_min hmul (le_refl _)) 1
    · rw [if_neg h1]
      by_cases h2 : 1 < d2
      · rw [if_pos h2]
        have hcast : (2 : ℚ) ≤ (d2 : ℚ) := by exact_mod_cast h2
        have hmin : (0:ℚ) ≤ min (((d2 : ℚ) - 1) * 0.08) 0.35 := by
          apply le_min <;> nlinarith
        linarith
      · rw [if_neg h2]
  refine ⟨hfac, fun c t ht => ?_⟩
  show preDiversityScore c { t with sourceDiversity := d1 } * diversityFactor d1 ≤
    preDiversityScore c { t with sourceDiversity := d2 } * diversityFactor d2
  have hsame1 : preDiversityScore c { t with sourceDiversity := d1 } =
      preDiversityScore c t := rfl
  have hsame2 : preDiversityScore c { t with sourceDiversity := d2 } =
      preDiversityScore c t := rfl
  rw [hsame1, hsame2]
  exact mul_le_mul_of_nonneg_left hfac (preDiversityScore_nonneg c t ht)

def w7trend : Trend :=
  { title := "Fusion Milestone Reported", source := "science_nature",
    score := 2, keywords := ["fusion", "milestone"] }

theorem diversity_monotone_witness :
    diversityFactor 2 ≤ diversityFactor 3 ∧
      (scoreStep [] { w7trend with sourceDiversity := 2 }).score ≤
        (scoreStep [] { w7trend with sourceDiversity := 3 }).score :=
  ⟨(diversity_monotone 2 3 (by decide)).1,
   (diversity_monotone 2 3 (by decide)).2 [] w7trend (by decide)⟩

/-- C9: for a feed source whose HTTP status is below 400, a
structurally valid feed (`bozo` false) with zero entries is classified
degraded, and unparsable content (`bozo` true) with zero entries is
classified down. -/
theorem health_zero_entries (s : HSourceSpec) (r : ProbeResponse)
    (hk : s.kind = "rss") (hs : r.statusCode < 400) :
    (r.feedBozo = false ∧ r.feedEntryCount = 0 →
      (checkSource s (.resp r)).status = "degraded") ∧
    (r.feedBozo = true ∧ r.feedEntryCount = 0 →
      (checkSource s (.resp r)).status = "down") := by
  have h400 : ¬ (400 ≤ r.statusCode) := by omega
  constructor
  · rintro ⟨hb, he⟩
    simp [checkSource, h400, hk, checkRss, hb, he]
  · rintro ⟨hb, he⟩
    simp [checkSource, h400, hk, checkRss, hb, he]

def w9spec : HSourceSpec :=
  { key := "news_npr", name := "NPR", url := "https://feeds.npr.org/1001/rss.xml",
    category := "news", kind := "rss" }

def w9resp (bozo : Bool) : ProbeResponse :=
  { statusCode := 200, contentType := "application/rss+xml",
    feedEntryCount := 0, feedBozo := bozo, jsonTarget := .nullv, htmlMatches := 0 }

theorem health_zero_entries_witness :
    (checkSource w9spec (.resp (w9resp false))).status = "degraded" ∧
      (checkSource w9spec (.resp (w9resp true))).status = "down" :=
  ⟨(health_zero_entries w9spec (w9resp false) rfl (by decide)).1 ⟨rfl, rfl⟩,
   (health_zero_entries w9spec (w9resp true) rfl (by decide)).2 ⟨rfl, rfl⟩⟩

/-- C4: for every surviving record the scorer applies, in order, the
tiered global-keyword multiplier (×1.15 / ×1.35 / ×1.60 for 1 / 2 / 3+
matching keywords, nothing for 0), then +0.10 per keyword shared with
another record, then the source-quality multiplier (tier factor times
risk factor), then — only when diversity exceeds 1 — the diversity boost
`1 + min((diversity-1)*0.08, 0.35)`: `_calculate_scores` coincides with
the claim's formula `scoreClaimed` on every record. -/
theorem scorer_fixed_order (ts : List Trend) :
    calculateScores ts = ts.map (fun t => { t with score := scoreClaimed ts t }) := by
  unfold calculateScores
  have hfun : ∀ t, scoreStep (buildCounter ts) t = { t with score := scoreClaimed ts t } := by
    intro t
    unfold scoreStep
    refine congrArg (fun x => { t with score := x }) ?_
    unfold preDiversityScore scoreClaimed diversityFactor
    simp only [countOf_buildCounter, sourceQualityMultiplier, tierBoostOf,
      riskAdjustmentOf]
    set g := (t.keywords.filter (fun kw => 3 ≤ inRecordsCount ts kw)).length with hg
    set b := (t.keywords.filter (fun kw => 1 < inRecordsCount ts kw)).length with hb
    have hboost :
        (if 3 ≤ g then t.score * 1.6
         else if g = 2 then t.score * 1.35
         else if g = 1 then t.score * 1.15
         else t.score) =
        (if g = 1 then t.score * 1.15
         else if g = 2 then t.score * 1.35
         else if 3 ≤ g then t.score * 1.60
         else t.score) := by
      by_cases h1 : g = 1
      · have h3 : ¬ 3 ≤ g := by omega
        have h2 : ¬ g = 2 := by omega
        rw [if_neg h3, if_neg h2, if_pos h1, if_pos h1]
      · by_cases h2 : g = 2
        · have h3 : ¬ 3 ≤ g := by omega
          rw [if_neg h3, if_pos h2, if_neg h1, if_pos h2]
        · by_cases h3 : 3 ≤ g
          · rw [if_pos h3, if_neg h1, if_neg h2, if_pos h3]; norm_num
          · rw [if_neg h3, if_neg h2, if_neg h1, if_neg h1, if_neg h2, if_neg h3]
    rw [hboost]
    by_cases hd : 1 < t.sourceDiversity
    · rw [if_pos hd, if_pos hd]
      norm_num
    · rw [if_neg hd, if_neg hd]
      norm_num
  rw [funext hfun]

theorem foldl_clusters_le {α : Type}
    (F : List (List Nat) × List Nat → α → List (List Nat) × List Nat)
    (hF : ∀ acc i, ((F acc i).1).length ≤ acc.1.length + 1) :
    ∀ (l : List α) (acc : List (List Nat) × List Nat),
      ((l.foldl F acc).1).length ≤ acc.1.length + l.length := by
  intro l
  induction l with
  | nil => simp
  | cons x xs ih =>
    intro acc
    calc ((xs.foldl F (F acc x)).1).length ≤ ((F acc x).1).length + xs.length := ih _
      _ ≤ acc.1.length + (x :: xs).length := by
          have := hF acc x
          simp only [List.length_cons]
          omega

theorem clusterStep_length_le (tok : List (List String)) (nt : List String)
    (simT semT : ℚ) (n : Nat) (acc : List (List Nat) × List Nat) (i : Nat) :
    ((clusterStep tok nt simT semT n acc i).1).length ≤ acc.1.length + 1 := by
  obtain ⟨cl, asg⟩ := acc
  unfold clusterStep
  dsimp only
  split
  · simp
  · simp

theorem buildClusters_length_le (tok : List (List String)) (nt : List String)
    (simT semT : ℚ) : (buildClusters tok nt simT semT).length ≤ tok.length := by
  unfold buildClusters
  have h := foldl_clusters_le (clusterStep tok nt simT semT tok.length)
    (clusterStep_length_le tok nt simT semT tok.length) (List.range tok.length) ([], [])
  simpa using h

/-- C3 (amended): one deduplication pass never increases the number of
records; idempotence itself fails (see the counterexample), because a
candidate already assigned to an earlier cluster is skipped without
being compared, so the output can still contain a pair satisfying the
duplicate criteria. -/
theorem dedup_never_grows (simT semT : ℚ) (ts : List Trend) :
    (dedup simT semT ts).length ≤ ts.length := by
  unfold dedup
  by_cases he : ts.isEmpty
  · rw [if_pos he]
  · rw [if_neg he]
    simp only [List.length_map]
    have := buildClusters_length_le
      ((ts.map (fun t => normalizeTitle t.title)).map titleTokens)
      (ts.map fun t => normalizeTitle t.title) simT semT
    simpa using this

def c3a : Trend :=
  { title := "aaa bbb", source := "news_a", score := 1, keywords := ["aaa"],
    timestamp := 10, corroboratingSources := ["news_a"], sourceDiversity := 1 }

def c3b : Trend :=
  { title := "ccc ddd", source := "news_b", score := 1, keywords := ["ccc"],
    timestamp := 20, corroboratingSources := ["news_b"], sourceDiversity := 1 }

def c3c : Trend :=
  { title := "aaa bbb ccc ddd", source := "news_c", score := 2,
    keywords := ["aaa", "ccc"], timestamp := 30,
    corroboratingSources := ["news_c"], sourceDiversity := 1 }

/-- C3 counterexample: with representative thresholds (T = 0.75,
S = 0.8 — the counterexample only needs T ≤ 1.25), one pass on these
three records leaves two records that satisfy the token-overlap
criterion (the second was never compared against the first's cluster
canonical, which had absorbed its only shared-token candidate), and a
second pass merges them: deduplication is not idempotent. -/
theorem dedup_not_idempotent_cex :
    ((dedup 0.75 0.8 [c3a, c3b, c3c]).map (fun t => t.title) =
      ["aaa bbb ccc ddd", "ccc ddd"]) ∧
    ((dedup 0.75 0.8 (dedup 0.75 0.8 [c3a, c3b, c3c])).map (fun t => t.title) =
      ["aaa bbb ccc ddd"]) := by
  constructor
  · with_unfolding_all rfl
  · with_unfolding_all rfl

/-- Python tuple `<=` on a quality key (the reflexive closure of the
strict order `pairGtb` decides). -/
def pairLe (a b : ℚ × Int) : Prop := a.1 < b.1 ∨ (a.1 = b.1 ∧ a.2 ≤ b.2)

theorem pairLe_refl (a : ℚ × Int) : pairLe a a := Or.inr ⟨rfl, le_refl _⟩

theorem pairLe_trans {a b c : ℚ × Int} (h1 : pairLe a b) (h2 : pairLe b c) :
    pairLe a c := by
  rcases h1 with h1 | ⟨e1, l1⟩ <;> rcases h2 with h2 | ⟨e2, l2⟩
  · exact Or.inl (lt_trans h1 h2)
  · exact Or.inl (e2 ▸ h1)
  · exact Or.inl (by rw [e1]; exact h2)
  · exact Or.inr ⟨e1.trans e2, le_trans l1 l2⟩

theorem pairGtb_false {a b : ℚ × Int} (h : pairGtb a b = false) : pairLe a b := by
  unfold pairGtb at h
  rw [decide_eq_false_iff_not] at h
  push_neg at h
  obtain ⟨h1, h2⟩ := h
  rcases lt_trichotomy a.1 b.1 with hlt | heq | hgt
  · exact Or.inl hlt
  · exact Or.inr ⟨heq, h2 heq⟩
  · exact absurd hgt (not_lt.mpr h1)

theorem pairGtb_true {a b : ℚ × Int} (h : pairGtb a b = true) : pairLe b a := by
  unfold pairGtb at h
  rw [decide_eq_true_eq] at h
  rcases h with h | ⟨he, hl⟩
  · exact Or.inl h
  · exact Or.inr ⟨he.symm, le_of_lt hl⟩

/-- C8 (amended): within each multi-member cluster, `_deduplicate`'s
canonical record is the member maximizing the *diversity-weighted* pair
`qualityKey` — score × source-quality multiplier ×
`(1 + min((diversity-1)*0.05, 0.25))`, ties by timestamp — not the plain
source-quality-weighted pair of the original claim (refuted by
`dedup_canonical_cex`); every other member is then merged into it in
cluster order by `mergeCluster`. -/
theorem dedup_canonical_maximal (ts : List Trend) (first : Nat) (rest : List Nat) :
    pickCanonicalIdx ts first rest ∈ first :: rest ∧
      ∀ j ∈ first :: rest,
        pairLe (qualityKey (trendAt ts j))
          (qualityKey (trendAt ts (pickCanonicalIdx ts first rest))) := by
  induction rest generalizing first with
  | nil =>
    refine ⟨by simp [pickCanonicalIdx], ?_⟩
    intro j hj
    rw [List.mem_singleton] at hj
    subst hj
    exact pairLe_refl _
  | cons r rs ih =>
    have hfold : pickCanonicalIdx ts first (r :: rs) =
        pickCanonicalIdx ts
          (if pairGtb (qualityKey (trendAt ts r)) (qualityKey (trendAt ts first))
           then r else first) rs := rfl
    by_cases hgt :
        pairGtb (qualityKey (trendAt ts r)) (qualityKey (trendAt ts first)) = true
    · rw [hfold, if_pos hgt]
      obtain ⟨ihm, ihle⟩ := ih r
      constructor
      · rcases List.mem_cons.mp ihm with he | hm
        · rw [he]; exact List.mem_cons_of_mem _ (List.mem_cons_self _ _)
        · exact List.mem_cons_of_mem _ (List.mem_cons_of_mem _ hm)
      · intro j hj
        rcases List.mem_cons.mp hj with he | hm
        · subst he
          exact pairLe_trans (pairGtb_true hgt) (ihle r (List.mem_cons_self _ _))
        · exact ihle j hm
    · rw [hfold, if_neg hgt]
      obtain ⟨ihm, ihle⟩ := ih first
      have hfalse : pairGtb (qualityKey (trendAt ts r))
          (qualityKey (trendAt ts first)) = false := by
        cases hb : pairGtb (qualityKey (trendAt ts r)) (qualityKey (trendAt ts first))
        · rfl
        · exact absurd hb hgt
      constructor
      · rcases List.mem_cons.mp ihm with he | hm
        · rw [he]; exact List.mem_cons_self _ _
        · exact List.mem_cons_of_mem _ (List.mem_cons_of_mem _ hm)
      · intro j hj
        rcases List.mem_cons.mp hj with he | hm
        · subst he
          exact ihle j (List.mem_cons_self _ _)
        · rcases List.mem_cons.mp hm with he' | hm'
          · subst he'
            exact pairLe_trans (pairGtb_false hfalse)
              (ihle first (List.mem_cons_self _ _))
          · exact ihle j (List.mem_cons_of_mem _ hm')

def c8x : Trend :=
  { title := "alpha beta", source := "news_x", score := 1,
    keywords := ["alpha", "beta"], timestamp := 100,
    corroboratingSources := ["news_x"], sourceDiversity := 1 }

def c8y : Trend :=
  { title := "alpha beta", source := "news_y", score := 0.97,
    keywords := ["alpha", "beta"], timestamp := 50,
    corroboratingSources := ["news_y", "news_z"], sourceDiversity := 2 }

theorem dedup_canonical_maximal_witness :
    pickCanonicalIdx [c8x, c8y] 0 [1] ∈ [0, 1] ∧
      pairLe (qualityKey (trendAt [c8x, c8y] 1))
        (qualityKey (trendAt [c8x, c8y] (pickCanonicalIdx [c8x, c8y] 0 [1]))) :=
  ⟨(dedup_canonical_maximal [c8x, c8y] 0 [1]).1,
   (dedup_canonical_maximal [c8x, c8y] 0 [1]).2 1 (by decide)⟩

/-- C8 counterexample: in the cluster formed by these two records (same
title, so the token-overlap criterion fires for any threshold T ≤ 1,
here T = 0.75, S = 0.8), the code picks `c8y` as canonical — its
diversity-weighted quality 0.97·1.3·1.05 = 1.32405 beats 1·1.3 — and the
deduplicated output keeps source `news_y`, although the claim's pair
(source-quality-weighted score, timestamp) is strictly larger for `c8x`
(1.3 > 1.261, and its timestamp is also later), so the claim's rule
would have selected `c8x`. -/
theorem dedup_canonical_cex :
    ((dedup 0.75 0.8 [c8x, c8y]).map (fun t => t.source) = ["news_y"]) ∧
      pairGtb (claimedQualityKey c8x) (claimedQualityKey c8y) = true := by
  constructor
  · with_unfolding_all rfl
  · with_unfolding_all rfl

/-- Whether either cache tier holds an entry for `scope` within its TTL
at time `now`. -/
def hasFreshCache (st : FetchState) (scope : String) (now : Int) : Bool :=
  (match lookupA st.feedCache scope with
   | some e => decide (now - e.timestamp ≤ feedCacheTtlSeconds)
   | none => false) ||
  (match lookupA st.persistentFeedCache scope with
   | some e => decide (now - e.timestamp ≤ feedPersistentTtlSeconds)
   | none => false)

theorem persistentSide_isSome (st : FetchState) (scope : String) (now : Int) :
    (persistentSideLookup st scope now).1.isSome =
      (match lookupA st.persistentFeedCache scope with
       | some e => decide (now - e.timestamp ≤ feedPersistentTtlSeconds)
       | none => false) := by
  unfold persistentSideLookup
  cases h : lookupA st.persistentFeedCache scope with
  | none => simp
  | some e =>
    by_cases hts : feedPersistentTtlSeconds < now - e.timestamp
    · have hn : ¬ (now - e.timestamp ≤ feedPersistentTtlSeconds) := not_le.mpr hts
      simp [hts, hn]
    · have hle : now - e.timestamp ≤ feedPersistentTtlSeconds := not_lt.mp hts
      simp [hts, hle]

theorem getCached_isSome (st : FetchState) (scope : String) (now : Int) :
    (getCachedFeedResponse st scope now).1.isSome = hasFreshCache st scope now := by
  unfold getCachedFeedResponse hasFreshCache
  cases hm : lookupA st.feedCache scope with
  | none => simp [persistentSide_isSome]
  | some e =>
    by_cases hts : now - e.timestamp ≤ feedCacheTtlSeconds
    · simp [hts]
    · have hps := persistentSide_isSome
        { st with feedCache := eraseA st.feedCache scope } scope now
      simp [hts, hps]

theorem record_failure_fresh (st : FetchState) (scope : String) (t1 : Int)
    (hclean : lookupA st.feedFailures scope = none) :
    lookupA (recordFeedFailure st scope t1).feedFailures scope =
      some { count := 1, cooldownUntil := 0 } := by
  unfold recordFeedFailure
  rw [hclean]
  simp [feedFailureThreshold, lookupA_insertA_self]

theorem record_failure_second (st : FetchState) (scope : String) (t2 : Int)
    (h1 : lookupA st.feedFailures scope = some { count := 1, cooldownUntil := 0 }) :
    lookupA (recordFeedFailure st scope t2).feedFailures scope =
      some { count := 2, cooldownUntil := t2 + feedCooldownSeconds } := by
  unfold recordFeedFailure
  rw [h1]
  simp [feedFailureThreshold, lookupA_insertA_self]

/-- C2: once two consecutive total-fetch failures have been recorded for
a scope, any `_fetch_rss` call for that scope issued before the cooldown
deadline makes zero network calls (for every transport), returns exactly
what the tiered cache lookup returns, and returns a response precisely
when one of the two cache tiers holds an entry within its TTL. -/
theorem circuit_cooldown_serves_cache
    (st : FetchState) (scope url : String) (t1 t2 now : Int)
    (transport : Nat → NetResult) (callIdx : Nat) (fallbackUrl : Option String)
    (allowFallback : Bool)
    (hclean : lookupA st.feedFailures scope = none)
    (hscope : scope ≠ "")
    (hnow : now < t2 + feedCooldownSeconds) :
    (fetchRss (recordFeedFailure (recordFeedFailure st scope t1) scope t2)
        transport callIdx url (some scope) fallbackUrl allowFallback now).2.1 = 0 ∧
    (fetchRss (recordFeedFailure (recordFeedFailure st scope t1) scope t2)
        transport callIdx url (some scope) fallbackUrl allowFallback now).1 =
      (getCachedFeedResponse
        (recordFeedFailure (recordFeedFailure st scope t1) scope t2) scope now).1 ∧
    (fetchRss (recordFeedFailure (recordFeedFailure st scope t1) scope t2)
        transport callIdx url (some scope) fallbackUrl allowFallback now).1.isSome =
      hasFreshCache
        (recordFeedFailure (recordFeedFailure st scope t1) scope t2) scope now := by
  set st2 := recordFeedFailure (recordFeedFailure st scope t1) scope t2 with hst2
  have h2 : lookupA st2.feedFailures scope =
      some { count := 2, cooldownUntil := t2 + feedCooldownSeconds } :=
    record_failure_second _ scope t2 (record_failure_fresh st scope t1 hclean)
  have hfs : feedScope (some scope) url = scope := by simp [feedScope, hscope]
  have hcool : isFeedOnCooldown st2 scope now = (true, st2) := by
    unfold isFeedOnCooldown
    rw [h2]
    simp [hnow]
  have hbody : ∀ fbFetch, fetchRssBody transport fbFetch st2 callIdx url
      (some scope) fallbackUrl now =
      ((getCachedFeedResponse st2 scope now).1, 0,
        (getCachedFeedResponse st2 scope now).2) := by
    intro fbFetch
    simp only [fetchRssBody, hfs, hcool]
  have hout : fetchRss st2 transport callIdx url (some scope) fallbackUrl
      allowFallback now =
      ((getCachedFeedResponse st2 scope now).1, 0,
        (getCachedFeedResponse st2 scope now).2) := by
    cases allowFallback with
    | false => exact hbody none
    | true => exact hbody (some (fetchRssAux transport 0))
  refine ⟨by rw [hout], by rw [hout], ?_⟩
  rw [hout]
  exact getCached_isSome st2 scope now

def w2entry : CacheEntry :=
  { timestamp := 0, content := "<rss><channel></channel></rss>",
    contentType := "application/rss+xml", statusCode := 200,
    url := "https://feeds.example/a" }

def w2state : FetchState := { persistentFeedCache := [("news_w2", w2entry)] }

theorem circuit_cooldown_serves_cache_witness :
    (fetchRss (recordFeedFailure (recordFeedFailure w2state "news_w2" 10) "news_w2" 20)
        (fun _ => .err "net") 0 "https://feeds.example/a" (some "news_w2") none true
        30).2.1 = 0 ∧
    (fetchRss (recordFeedFailure (recordFeedFailure w2state "news_w2" 10) "news_w2" 20)
        (fun _ => .err "net") 0 "https://feeds.example/a" (some "news_w2") none true
        30).1 =
      (getCachedFeedResponse
        (recordFeedFailure (recordFeedFailure w2state "news_w2" 10) "news_w2" 20)
        "news_w2" 30).1 ∧
    (fetchRss (recordFeedFailure (recordFeedFailure w2state "news_w2" 10) "news_w2" 20)
        (fun _ => .err "net") 0 "https://feeds.example/a" (some "news_w2") none true
        30).1.isSome =
      hasFreshCache
        (recordFeedFailure (recordFeedFailure w2state "news_w2" 10) "news_w2" 20)
        "news_w2" 30 :=
  circuit_cooldown_serves_cache w2state "news_w2" "https://feeds.example/a" 10 20 30
    (fun _ => .err "net") 0 none true (by decide) (by decide) (by decide)

theorem attemptLoop_calls_pos (transport : Nat → NetResult) (idx k : Nat)
    (hk : 1 ≤ k) : 1 ≤ (attemptLoop transport idx k).2 := by
  cases k with
  | zero => omega
  | succ k =>
    simp only [attemptLoop]
    cases transport idx with
    | err m =>
      rcases h : attemptLoop transport (idx + 1) k with ⟨r, c⟩
      simp [h]
    | resp r =>
      by_cases ha : allowedStatus r.statusCode
      · by_cases hf : isFeedResponse r
        · simp [ha, hf]
        · rcases h : attemptLoop transport (idx + 1) k with ⟨r', c⟩
          simp [ha, hf, h]
      · rcases h : attemptLoop transport (idx + 1) k with ⟨r', c⟩
        simp [ha, h]

theorem onTotalFailure_calls (st : FetchState) (scope : String) (now : Int)
    (calls : Nat) : (onTotalFailure st scope now calls).2.1 = calls := by
  unfold onTotalFailure
  rcases h : getCachedFeedResponse (recordFeedFailure st scope now) scope now with ⟨c, s⟩
  simp [h]

theorem fetchRssBody_calls_pos (transport : Nat → NetResult)
    (fbFetch : Option (FetchState → Nat → String → Option String → Option String →
      Int → Option FeedResponse × Nat × FetchState))
    (st : FetchState) (callIdx : Nat) (url : String)
    (sourceKey fallbackUrl : Option String) (now : Int)
    (hcool : (isFeedOnCooldown st (feedScope sourceKey url) now).1 = false) :
    1 ≤ (fetchRssBody transport fbFetch st callIdx url sourceKey fallbackUrl
      now).2.1 := by
  simp only [fetchRssBody]
  rcases hic : isFeedOnCooldown st (feedScope sourceKey url) now with ⟨b, st'⟩
  rw [hic] at hcool
  simp only at hcool
  subst hcool
  simp only
  rcases hal : attemptLoop transport callIdx
      (max 1 ((lookupA domainAttempts (hostOf url)).getD 1)) with ⟨ropt, calls⟩
  have hc1 : 1 ≤ calls := by
    have := attemptLoop_calls_pos transport callIdx
      (max 1 ((lookupA domainAttempts (hostOf url)).getD 1)) (le_max_left 1 _)
    rw [hal] at this
    exact this
  cases ropt with
  | some r => simpa using hc1
  | none =>
    dsimp only
    generalize (match fallbackUrl with
      | some f =>
        if f = "" then (getSourceMetadata (feedScope sourceKey "")).fallbackUrl
        else some f
      | none => (getSourceMetadata (feedScope sourceKey "")).fallbackUrl) = fb2
    cases fbFetch with
    | none =>
      cases fb2 <;> · dsimp only
                      rw [onTotalFailure_calls]
                      exact hc1
    | some doFetch =>
      cases fb2 with
      | none =>
        dsimp only
        rw [onTotalFailure_calls]
        exact hc1
      | some fb =>
        dsimp only
        by_cases hok : ¬ (fb = "") ∧ ¬ (fb = url)
        · rw [if_pos hok]
          rcases hrec : doFetch st' (callIdx + calls) fb sourceKey none now
            with ⟨fr, fc, stf⟩
          cases fr with
          | some r => simp; omega
          | none =>
            dsimp only
            rw [onTotalFailure_calls]
            omega
        · rw [if_neg hok]
          rw [onTotalFailure_calls]
          exact hc1

/-- C10: a fetch for a scope whose recorded cooldown deadline has
passed deletes the scope's whole circuit state (including the failure
count) in `_is_feed_on_cooldown` before the network attempt — the fetch
then makes at least one network call — and, the state being fresh again,
one new failure yields count 1 with no cooldown while two fresh
consecutive failures are needed to re-enter cooldown. -/
theorem circuit_reset_after_expiry
    (st : FetchState) (scope url : String) (cs : CircuitState) (now t3 t4 : Int)
    (transport : Nat → NetResult) (callIdx : Nat) (fallbackUrl : Option String)
    (allowFallback : Bool)
    (hlook : lookupA st.feedFailures scope = some cs)
    (hpos : 0 < cs.cooldownUntil) (hexp : cs.cooldownUntil ≤ now)
    (hscope : scope ≠ "") (ht3 : 0 ≤ t3) :
    (isFeedOnCooldown st scope now).1 = false ∧
    lookupA ((isFeedOnCooldown st scope now).2).feedFailures scope = none ∧
    1 ≤ (fetchRss st transport callIdx url (some scope) fallbackUrl
      allowFallback now).2.1 ∧
    lookupA (recordFeedFailure ((isFeedOnCooldown st scope now).2) scope
      t3).feedFailures scope = some { count := 1, cooldownUntil := 0 } ∧
    (isFeedOnCooldown (recordFeedFailure ((isFeedOnCooldown st scope now).2)
      scope t3) scope t3).1 = false ∧
    lookupA (recordFeedFailure (recordFeedFailure
      ((isFeedOnCooldown st scope now).2) scope t3) scope t4).feedFailures scope =
      some { count := 2, cooldownUntil := t4 + feedCooldownSeconds } := by
  have hnl : ¬ now < cs.cooldownUntil := not_lt.mpr hexp
  have hio : isFeedOnCooldown st scope now =
      (false, { st with feedFailures := eraseA st.feedFailures scope }) := by
    unfold isFeedOnCooldown
    rw [hlook]
    simp [hnl, hpos]
  have herase : lookupA ((isFeedOnCooldown st scope now).2).feedFailures scope =
      none := by
    rw [hio]
    exact lookupA_eraseA_self _ _
  have hfs : feedScope (some scope) url = scope := by simp [feedScope, hscope]
  have hcool1 : (isFeedOnCooldown st (feedScope (some scope) url) now).1 = false := by
    rw [hfs, hio]
  have hfresh2 : lookupA (recordFeedFailure
      { st with feedFailures := eraseA st.feedFailures scope } scope
      t3).feedFailures scope = some { count := 1, cooldownUntil := 0 } :=
    record_failure_fresh _ scope t3 (lookupA_eraseA_self _ _)
  have hnt3 : ¬ t3 < (0 : Int) := not_lt.mpr ht3
  refine ⟨by rw [hio], herase, ?_, ?_, ?_, ?_⟩
  · cases allowFallback with
    | false =>
      exact fetchRssBody_calls_pos transport none st callIdx url (some scope)
        fallbackUrl now hcool1
    | true =>
      exact fetchRssBody_calls_pos transport (some (fetchRssAux transport 0)) st
        callIdx url (some scope) fallbackUrl now hcool1
  · rw [hio]
    exact hfresh2
  · rw [hio]
    show (isFeedOnCooldown (recordFeedFailure
      { st with feedFailures := eraseA st.feedFailures scope } scope t3) scope
      t3).1 = false
    unfold isFeedOnCooldown
    rw [hfresh2]
    simp [hnt3]
  · rw [hio]
    exact record_failure_second _ scope t4 hfresh2

def w10state : FetchState :=
  { feedFailures := [("sc10", { count := 2, cooldownUntil := 100 })] }

theorem circuit_reset_after_expiry_witness :
    (isFeedOnCooldown w10state "sc10" 150).1 = false ∧
    lookupA ((isFeedOnCooldown w10state "sc10" 150).2).feedFailures "sc10" = none ∧
    1 ≤ (fetchRss w10state (fun _ => .err "net") 0 "https://feeds.example/b"
      (some "sc10") none true 150).2.1 ∧
    lookupA (recordFeedFailure ((isFeedOnCooldown w10state "sc10" 150).2) "sc10"
      200).feedFailures "sc10" = some { count := 1, cooldownUntil := 0 } ∧
    (isFeedOnCooldown (recordFeedFailure ((isFeedOnCooldown w10state "sc10" 150).2)
      "sc10" 200) "sc10" 200).1 = false ∧
    lookupA (recordFeedFailure (recordFeedFailure
      ((isFeedOnCooldown w10state "sc10" 150).2) "sc10" 200) "sc10"
      260).feedFailures "sc10" =
      some { count := 2, cooldownUntil := 260 + feedCooldownSeconds } :=
  circuit_reset_after_expiry w10state "sc10" "https://feeds.example/b"
    { count := 2, cooldownUntil := 100 } 150 200 260 (fun _ => .err "net") 0 none
    true (by decide) (by decide) (by decide) (by decide) (by decide)

/-- C5 (amended): the Health Checker does not reuse the Fetch Client's
domain-override/attempt/backoff/fallback machinery: `check_source`
consumes exactly one probe outcome (one `session.get`) and classifies
every source as healthy, degraded, or down — the classification "flaky"
is never produced (refuted claim: `health_checker_not_fetch_client_cex`). -/
theorem health_single_probe_classes (s : HSourceSpec) (p : ProbeOutcome) :
    (checkSource s p).status = "healthy" ∨ (checkSource s p).status = "degraded" ∨
      (checkSource s p).status = "down" := by
  cases p with
  | err m => simp [checkSource]
  | resp r =>
    unfold checkSource
    dsimp only
    by_cases h4 : 400 ≤ r.statusCode
    · simp [h4]
    · rw [if_neg h4]
      by_cases hr : s.kind = "rss"
      · rw [if_pos hr]
        unfold checkRss
        split_ifs <;> simp
      · rw [if_neg hr]
        by_cases hj : s.kind = "json"
        · rw [if_pos hj]
          unfold checkJson
          dsimp only
          split_ifs <;> simp
        · rw [if_neg hj]
          unfold checkHtml
          cases s.selector with
          | none => simp
          | some sel => split_ifs <;> simp

def c5spec : HSourceSpec :=
  { key := "news_wapo", name := "Washington Post",
    url := "https://feeds.washingtonpost.com/rss/national", category := "news",
    kind := "rss" }

def c5resp : ProbeResponse :=
  { statusCode := 200, contentType := "application/rss+xml",
    feedEntryCount := 5, feedBozo := false, jsonTarget := .nullv, htmlMatches := 0 }

def c5transport : Nat → ProbeOutcome := fun n =>
  if n = 1 then .err "connection timeout" else .resp c5resp

/-- C5 counterexample: for the Washington Post feed — whose domain
profile gives the Fetch Client 3 attempts — a transport whose first call
raises and whose second call returns a healthy feed yields "down" from
the code's `check_source` (it probes exactly once and never retries),
while the claimed behaviour (`checkSourceClaim`, the spec's
same-domain-override/attempt/fallback logic) retries and classifies the
source "flaky". -/
theorem health_checker_not_fetch_client_cex :
    (checkSource c5spec (c5transport 1)).status = "down" ∧
      checkSourceClaim c5spec c5transport = "flaky" := by
  constructor
  · rfl
  · rfl
